import Mathlib

/-!
Shallow embedding of `src/accounts_db.py` (retail_banking_mcp).

The SQLite database is modelled as an explicit state: the `accounts` table is a
list of `(account_id, Account)` rows (the `PRIMARY KEY` uniqueness of
`account_id` is taken as a `Nodup` hypothesis where a claim needs it), and the
`transactions` table is a list of `Txn` rows kept in insertion order (rowid
order).  Monetary values (SQLite `REAL`) are modelled as exact rationals, since
the claims under study are about exact balance arithmetic, not rounding.
Timestamps (`"YYYY-MM-DD HH:MM:SS"` strings, compared lexicographically by the
SQL `ORDER BY`) are modelled as a date component and a time component compared
lexicographically; SQL `date(timestamp)` is the date component, and the
`start_date`/`end_date` parameters are modelled as optional dates.

Each Python function opens its own connection via `get_db()` and commits its
writes there; this matters only for `transfer`, which calls `withdraw` and
`deposit` (each of which opens a fresh connection and commits independently)
while the `BEGIN TRANSACTION` / `rollback` on `transfer`'s own connection
encloses no write of its own.  The state passing below reflects exactly that:
a committed `withdraw` stays committed when the outer rollback runs.
-/

namespace AccountsDb

/-- Row of the `accounts` table (minus the key `account_id` column). -/
structure Account where
  holder_name : String
  account_type : String
  balance : ℚ
  status : String
  created_at : String
deriving Repr, DecidableEq

/-- A `"YYYY-MM-DD HH:MM:SS"` timestamp: date component and time-of-day
component, ordered lexicographically (as the fixed-width string is). -/
structure Timestamp where
  date : Nat
  time : Nat
deriving Repr, DecidableEq

/-- Lexicographic order on timestamps, matching string comparison of
`"YYYY-MM-DD HH:MM:SS"` values. -/
def tsLE (a b : Timestamp) : Bool :=
  decide (a.date < b.date ∨ (a.date = b.date ∧ a.time ≤ b.time))

/-- Row of the `transactions` table (minus the autoincrement `id`; insertion
order of the list plays the role of the rowid order). -/
structure Txn where
  account_id : String
  type : String
  amount : ℚ
  description : String
  balance_after : ℚ
  timestamp : Timestamp
deriving Repr, DecidableEq

/-- The database state: both tables. -/
structure DB where
  accounts : List (String × Account)
  transactions : List Txn
deriving Repr, DecidableEq

/-- `SELECT ... FROM accounts WHERE account_id = ?` followed by `fetchone()`. -/
def findAccount (db : DB) (id : String) : Option Account :=
  (db.accounts.find? (fun p => p.1 == id)).map Prod.snd

/-- `UPDATE accounts SET ... WHERE account_id = ?`: apply `f` to every row
whose key matches (the primary key makes this at most one row in practice). -/
def updateRows (l : List (String × Account)) (id : String) (f : Account → Account) :
    List (String × Account) :=
  l.map (fun p => if p.1 == id then (p.1, f p.2) else p)

/-- `cur.rowcount` after an `UPDATE ... WHERE account_id = ?`: the number of
rows matched. -/
def rowcount (l : List (String × Account)) (id : String) : Nat :=
  l.countP (fun p => p.1 == id)

/-- `get_balance`: returns `0.0` when no row exists. -/
def get_balance (db : DB) (id : String) : ℚ :=
  match findAccount db id with
  | some a => a.balance
  | none => 0

/-- `create_account`: the generated `accNNNNNNNN` identifier and the two
`datetime.now()` readings are passed in as parameters.  The `INSERT` omits
`status`, so the column default `'active'` applies; a `credit` transaction is
recorded only when `initial_deposit > 0`. -/
def create_account (db : DB) (account_id holder_name account_type : String)
    (initial_deposit : ℚ) (today : String) (ts : Timestamp) : DB :=
  let db1 : DB :=
    { db with accounts := db.accounts ++
        [(account_id, ⟨holder_name, account_type, initial_deposit, "active", today⟩)] }
  if 0 < initial_deposit then
    { db1 with transactions := db1.transactions ++
        [⟨account_id, "credit", initial_deposit, "Initial deposit", initial_deposit, ts⟩] }
  else db1

/-- `close_account`: fails when the row is absent or the balance is nonzero,
otherwise sets `status = 'closed'` and returns `cur.rowcount > 0`. -/
def close_account (db : DB) (id : String) : Bool × DB :=
  match findAccount db id with
  | none => (false, db)
  | some a =>
    if a.balance ≠ 0 then (false, db)
    else
      (decide (0 < rowcount db.accounts id),
       { db with accounts := updateRows db.accounts id (fun b => { b with status := "closed" }) })

/-- `deposit`: the `SELECT` filters on `account_id = ? AND status = "active"`;
on success the balance is overwritten with `new_balance` and a `credit`
transaction is inserted. -/
def deposit (db : DB) (id : String) (amount : ℚ) (description : String)
    (ts : Timestamp) : Bool × DB :=
  match (db.accounts.find? (fun p => p.1 == id && p.2.status == "active")).map Prod.snd with
  | none => (false, db)
  | some a =>
    let new_balance := a.balance + amount
    (true,
     { accounts := updateRows db.accounts id (fun b => { b with balance := new_balance }),
       transactions := db.transactions ++
         [⟨id, "credit", amount, description, new_balance, ts⟩] })

/-- `withdraw`: the `SELECT` filters on
`account_id = ? AND status = "active" AND balance >= ?`; on success the balance
is overwritten with `new_balance` and a `debit` transaction is inserted. -/
def withdraw (db : DB) (id : String) (amount : ℚ) (description : String)
    (ts : Timestamp) : Bool × DB :=
  match (db.accounts.find? (fun p =>
      p.1 == id && (p.2.status == "active" && decide (amount ≤ p.2.balance)))).map Prod.snd with
  | none => (false, db)
  | some a =>
    let new_balance := a.balance - amount
    (true,
     { accounts := updateRows db.accounts id (fun b => { b with balance := new_balance }),
       transactions := db.transactions ++
         [⟨id, "debit", amount, description, new_balance, ts⟩] })

/-- `transfer`: calls `withdraw` then `deposit`.  Both callees open their own
connection and commit; the `BEGIN TRANSACTION` / `conn.rollback()` on
`transfer`'s own connection wraps no write of its own, so when the deposit leg
fails the already committed withdraw persists — the result state is the
post-withdraw state, not the pre-call state. -/
def transfer (db : DB) (from_acc to_acc : String) (amount : ℚ)
    (ts1 ts2 : Timestamp) : Bool × DB :=
  let w := withdraw db from_acc amount ("Transfer to " ++ to_acc) ts1
  if w.1 = false then (false, db)
  else
    let d := deposit w.2 to_acc amount ("Transfer from " ++ from_acc) ts2
    if d.1 = false then (false, w.2)
    else (true, d.2)

/-- One row of `get_history`'s result: the selected columns
`timestamp, type, amount, description, balance_after`. -/
structure HistRow where
  timestamp : Timestamp
  type : String
  amount : ℚ
  description : String
  balance_after : ℚ
deriving Repr, DecidableEq

/-- Projection of a transaction row onto the columns selected by
`get_history`. -/
def histRowOf (t : Txn) : HistRow :=
  ⟨t.timestamp, t.type, t.amount, t.description, t.balance_after⟩

/-- `get_history`: `WHERE account_id = ?`, plus
`AND date(timestamp) BETWEEN date(?) AND date(?)` exactly when both bounds are
given (Python `if start_date and end_date`), then `ORDER BY timestamp DESC` and
projection onto the selected columns. -/
def get_history (db : DB) (id : String)
    (start_date end_date : Option Nat) : List HistRow :=
  let rows := db.transactions.filter (fun t =>
    t.account_id == id &&
      match start_date, end_date with
      | some s, some e => decide (s ≤ t.timestamp.date) && decide (t.timestamp.date ≤ e)
      | _, _ => true)
  (rows.mergeSort (fun a b => tsLE b.timestamp a.timestamp)).map histRowOf

/-- Python truthiness of an optional string argument: `None` and `""` are
falsy, everything else truthy (`if holder_name:`). -/
def truthy : Option String → Bool
  | none => false
  | some s => !(s == "")

/-- `update_account_details`: builds the `SET` list from the truthy arguments;
with an empty list it returns `True` without touching the database, otherwise
it runs the `UPDATE` and returns `cur.rowcount > 0`. -/
def update_account_details (db : DB) (id : String)
    (holder_name account_type : Option String) : Bool × DB :=
  let f : Account → Account := fun a =>
    let a1 := if truthy holder_name then { a with holder_name := holder_name.getD "" } else a
    if truthy account_type then { a1 with account_type := account_type.getD "" } else a1
  if !truthy holder_name && !truthy account_type then (true, db)
  else
    (decide (0 < rowcount db.accounts id),
     { db with accounts := updateRows db.accounts id f })

/-- Well-formedness guaranteed by the SQL schema: `account_id` is a
`PRIMARY KEY`, so keys in the `accounts` table are pairwise distinct. -/
def WF (db : DB) : Prop := (db.accounts.map Prod.fst).Nodup

/-- The most recent (largest autoincrement `id`, i.e. last inserted)
transaction row belonging to an account, if any. -/
def lastTxnFor (db : DB) (id : String) : Option Txn :=
  (db.transactions.filter (fun t => t.account_id == id)).getLast?

/-! ### Helper lemmas about the embedded table primitives -/

theorem updateRows_nil (id : String) (f : Account → Account) :
    updateRows [] id f = [] := rfl

theorem updateRows_cons (p : String × Account) (t : List (String × Account))
    (id : String) (f : Account → Account) :
    updateRows (p :: t) id f =
      (if p.1 == id then (p.1, f p.2) else p) :: updateRows t id f := rfl

theorem find?_updateRows_self (l : List (String × Account)) (id : String)
    (f : Account → Account) :
    (updateRows l id f).find? (fun p => p.1 == id) =
      (l.find? (fun p => p.1 == id)).map (fun p => (p.1, f p.2)) := by
  induction l with
  | nil => rfl
  | cons p t ih =>
    rw [updateRows_cons]
    cases h : (p.1 == id) with
    | true =>
      rw [if_pos rfl]
      simp only [List.find?_cons, h]
      rfl
    | false =>
      rw [if_neg (by simp)]
      simp only [List.find?_cons, h]
      exact ih

theorem find?_updateRows_ne (l : List (String × Account)) (id j : String)
    (f : Account → Account) (hj : j ≠ id) :
    (updateRows l id f).find? (fun p => p.1 == j) = l.find? (fun p => p.1 == j) := by
  induction l with
  | nil => rfl
  | cons p t ih =>
    rw [updateRows_cons]
    cases h : (p.1 == id) with
    | true =>
      have hid : p.1 = id := by simpa [beq_iff_eq] using h
      have hpj : (p.1 == j) = false := by
        simp only [beq_eq_false_iff_ne, ne_eq, hid]
        exact fun hc => hj hc.symm
      rw [if_pos rfl]
      simp only [List.find?_cons, hpj]
      exact ih
    | false =>
      rw [if_neg (by simp)]
      simp only [List.find?_cons]
      cases hpj : (p.1 == j) with
      | true => rfl
      | false => exact ih

theorem map_fst_updateRows (l : List (String × Account)) (id : String)
    (f : Account → Account) :
    (updateRows l id f).map Prod.fst = l.map Prod.fst := by
  induction l with
  | nil => rfl
  | cons p t ih =>
    rw [updateRows_cons, List.map_cons, List.map_cons, ih]
    cases h : (p.1 == id) with
    | true => rw [if_pos rfl]
    | false => rw [if_neg (by simp)]

theorem rowcount_pos_of_find? (l : List (String × Account)) (id : String)
    (p : String × Account) (h : l.find? (fun q => q.1 == id) = some p) :
    0 < rowcount l id := by
  have hmem : p ∈ l := List.mem_of_find?_eq_some h
  have hp := List.find?_some h
  exact List.countP_pos_iff.mpr ⟨p, hmem, hp⟩

theorem find?_key_and (l : List (String × Account)) (id : String)
    (P : String × Account → Bool) (hn : (l.map Prod.fst).Nodup) :
    l.find? (fun p => p.1 == id && P p) =
      (l.find? (fun p => p.1 == id)).bind (fun p => if P p then some p else none) := by
  induction l with
  | nil => rfl
  | cons a t ih =>
    rw [List.map_cons, List.nodup_cons] at hn
    cases hk : (a.1 == id) with
    | true =>
      have hid : a.1 = id := by simpa [beq_iff_eq] using hk
      have hnone : t.find? (fun p => p.1 == id && P p) = none := by
        rw [List.find?_eq_none]
        intro q hq hc
        have hq1 : q.1 = id := by
          have := (Bool.and_eq_true _ _).mp hc
          simpa [beq_iff_eq] using this.1
        exact hn.1 (by simpa [hid, ← hq1] using List.mem_map_of_mem Prod.fst hq)
      cases hP : P a with
      | true => simp [List.find?_cons, hk, hP]
      | false => simp [List.find?_cons, hk, hP, hnone]
    | false => simpa [List.find?_cons, hk] using ih hn.2

theorem findAccount_updateRows_self (l : List (String × Account)) (txs : List Txn)
    (id : String) (f : Account → Account) :
    findAccount ⟨updateRows l id f, txs⟩ id = ((l.find? (fun p => p.1 == id)).map Prod.snd).map f := by
  unfold findAccount
  rw [find?_updateRows_self]
  cases l.find? (fun p => p.1 == id) <;> rfl

theorem findAccount_updateRows_ne (l : List (String × Account)) (txs : List Txn)
    (id j : String) (f : Account → Account) (hj : j ≠ id) :
    findAccount ⟨updateRows l id f, txs⟩ j = (l.find? (fun p => p.1 == j)).map Prod.snd := by
  unfold findAccount
  rw [find?_updateRows_ne _ _ _ _ hj]

theorem WF_mk_updateRows (l : List (String × Account)) (txs : List Txn)
    (id : String) (f : Account → Account) (hw : (l.map Prod.fst).Nodup) :
    WF ⟨updateRows l id f, txs⟩ := by
  unfold WF
  simpa [map_fst_updateRows] using hw

/-- Rewriting equation for `deposit` under the primary-key invariant:
the conjunctive `SELECT` filter is equivalent to looking the account up by key
and testing its status. -/
theorem deposit_eq (db : DB) (id : String) (amount : ℚ) (d : String)
    (ts : Timestamp) (hw : WF db) :
    deposit db id amount d ts =
      match findAccount db id with
      | none => (false, db)
      | some a =>
        if a.status = "active" then
          (true,
           { accounts := updateRows db.accounts id
               (fun b => { b with balance := a.balance + amount }),
             transactions := db.transactions ++
               [⟨id, "credit", amount, d, a.balance + amount, ts⟩] })
        else (false, db) := by
  unfold deposit findAccount
  rw [find?_key_and db.accounts id (fun p => p.2.status == "active") hw]
  cases hfind : db.accounts.find? (fun p => p.1 == id) with
  | none => rfl
  | some p =>
    cases hP : (p.2.status == "active") with
    | true =>
      have heq : p.2.status = "active" := by simpa [beq_iff_eq] using hP
      simp [hP, heq]
    | false =>
      have hne : p.2.status ≠ "active" := by simpa [beq_eq_false_iff_ne] using hP
      simp [hP, hne]

/-- Rewriting equation for `withdraw` under the primary-key invariant. -/
theorem withdraw_eq (db : DB) (id : String) (amount : ℚ) (d : String)
    (ts : Timestamp) (hw : WF db) :
    withdraw db id amount d ts =
      match findAccount db id with
      | none => (false, db)
      | some a =>
        if a.status = "active" ∧ amount ≤ a.balance then
          (true,
           { accounts := updateRows db.accounts id
               (fun b => { b with balance := a.balance - amount }),
             transactions := db.transactions ++
               [⟨id, "debit", amount, d, a.balance - amount, ts⟩] })
        else (false, db) := by
  unfold withdraw findAccount
  rw [find?_key_and db.accounts id
    (fun p => p.2.status == "active" && decide (amount ≤ p.2.balance)) hw]
  cases hfind : db.accounts.find? (fun p => p.1 == id) with
  | none => rfl
  | some p =>
    cases hP : (p.2.status == "active" && decide (amount ≤ p.2.balance)) with
    | true =>
      have hparts := (Bool.and_eq_true _ _).mp hP
      have heq : p.2.status = "active" := by simpa [beq_iff_eq] using hparts.1
      have hle : amount ≤ p.2.balance := by simpa using hparts.2
      simp [hP, heq, hle]
    | false =>
      have hno : ¬(p.2.status = "active" ∧ amount ≤ p.2.balance) := by
        rintro ⟨h1, h2⟩
        simp [h1, h2] at hP
      simp [hP, hno]

/-- Successful `deposit`, explicitly. -/
theorem deposit_succ (db : DB) (id : String) (amount : ℚ) (d : String)
    (ts : Timestamp) (hw : WF db) (a : Account)
    (hf : findAccount db id = some a) (ha : a.status = "active") :
    deposit db id amount d ts =
      (true,
       { accounts := updateRows db.accounts id
           (fun b => { b with balance := a.balance + amount }),
         transactions := db.transactions ++
           [⟨id, "credit", amount, d, a.balance + amount, ts⟩] }) := by
  rw [deposit_eq db id amount d ts hw, hf]
  simp [ha]

/-- `deposit` on a missing account fails with no effect. -/
theorem deposit_none (db : DB) (id : String) (amount : ℚ) (d : String)
    (ts : Timestamp) (hw : WF db) (hf : findAccount db id = none) :
    deposit db id amount d ts = (false, db) := by
  rw [deposit_eq db id amount d ts hw, hf]

/-- `deposit` on a non-active account fails with no effect. -/
theorem deposit_inactive (db : DB) (id : String) (amount : ℚ) (d : String)
    (ts : Timestamp) (hw : WF db) (a : Account)
    (hf : findAccount db id = some a) (ha : a.status ≠ "active") :
    deposit db id amount d ts = (false, db) := by
  rw [deposit_eq db id amount d ts hw, hf]
  simp [ha]

/-- Successful `withdraw`, explicitly. -/
theorem withdraw_succ (db : DB) (id : String) (amount : ℚ) (d : String)
    (ts : Timestamp) (hw : WF db) (a : Account)
    (hf : findAccount db id = some a) (ha : a.status = "active")
    (hle : amount ≤ a.balance) :
    withdraw db id amount d ts =
      (true,
       { accounts := updateRows db.accounts id
           (fun b => { b with balance := a.balance - amount }),
         transactions := db.transactions ++
           [⟨id, "debit", amount, d, a.balance - amount, ts⟩] }) := by
  rw [withdraw_eq db id amount d ts hw, hf]
  simp [ha, hle]

/-- `withdraw` on a missing account fails with no effect. -/
theorem withdraw_none (db : DB) (id : String) (amount : ℚ) (d : String)
    (ts : Timestamp) (hw : WF db) (hf : findAccount db id = none) :
    withdraw db id amount d ts = (false, db) := by
  rw [withdraw_eq db id amount d ts hw, hf]

/-- `withdraw` whose precondition (active status and sufficient balance)
fails does nothing. -/
theorem withdraw_blocked (db : DB) (id : String) (amount : ℚ) (d : String)
    (ts : Timestamp) (hw : WF db) (a : Account)
    (hf : findAccount db id = some a)
    (ha : ¬(a.status = "active" ∧ amount ≤ a.balance)) :
    withdraw db id amount d ts = (false, db) := by
  rw [withdraw_eq db id amount d ts hw, hf]
  simp only [if_neg ha]

/-- A `deposit` that reports failure did nothing: the only failing branch
returns the input state. -/
theorem deposit_fail (db : DB) (id : String) (amount : ℚ) (d : String)
    (ts : Timestamp) (h : (deposit db id amount d ts).1 = false) :
    deposit db id amount d ts = (false, db) := by
  unfold deposit at h ⊢
  cases hfind : (db.accounts.find? (fun p => p.1 == id && p.2.status == "active")).map Prod.snd with
  | none => rfl
  | some a => rw [hfind] at h; simp at h

/-- A `withdraw` that reports failure did nothing. -/
theorem withdraw_fail (db : DB) (id : String) (amount : ℚ) (d : String)
    (ts : Timestamp) (h : (withdraw db id amount d ts).1 = false) :
    withdraw db id amount d ts = (false, db) := by
  unfold withdraw at h ⊢
  cases hfind : (db.accounts.find? (fun p =>
      p.1 == id && (p.2.status == "active" && decide (amount ≤ p.2.balance)))).map Prod.snd with
  | none => rfl
  | some a => rw [hfind] at h; simp at h

theorem bool_true_of_not_false (b : Bool) (h : ¬ b = false) : b = true := by
  cases b with
  | true => rfl
  | false => exact absurd rfl h

theorem exists_row_of_findAccount (db : DB) (id : String) (a : Account)
    (hf : findAccount db id = some a) :
    ∃ p, db.accounts.find? (fun q => q.1 == id) = some p ∧ p.2 = a := by
  unfold findAccount at hf
  cases hfind : db.accounts.find? (fun q => q.1 == id) with
  | none => rw [hfind] at hf; simp at hf
  | some p =>
    rw [hfind] at hf
    exact ⟨p, rfl, by simpa using hf⟩

theorem rowcount_pos_of_findAccount (db : DB) (id : String) (a : Account)
    (hf : findAccount db id = some a) : 0 < rowcount db.accounts id := by
  obtain ⟨p, hp, -⟩ := exists_row_of_findAccount db id a hf
  exact rowcount_pos_of_find? _ _ _ hp

theorem account_set_status_self (a : Account) (s : String) (hs : a.status = s) :
    { a with status := s } = a := by
  cases a
  simp_all

/-- A `withdraw` that reports success found a unique active row with enough
balance, and produced exactly the debited state. -/
theorem withdraw_succ_inv (db : DB) (id : String) (amount : ℚ) (d : String)
    (ts : Timestamp) (hw : WF db) (h : (withdraw db id amount d ts).1 = true) :
    ∃ a, findAccount db id = some a ∧ a.status = "active" ∧ amount ≤ a.balance ∧
      (withdraw db id amount d ts).2 =
        { accounts := updateRows db.accounts id
            (fun b => { b with balance := a.balance - amount }),
          transactions := db.transactions ++
            [⟨id, "debit", amount, d, a.balance - amount, ts⟩] } := by
  have hweq := withdraw_eq db id amount d ts hw
  cases hfa : findAccount db id with
  | none =>
    simp only [hfa] at hweq
    rw [hweq] at h
    simp at h
  | some a =>
    simp only [hfa] at hweq
    by_cases hcond : a.status = "active" ∧ amount ≤ a.balance
    · rw [if_pos hcond] at hweq
      exact ⟨a, rfl, hcond.1, hcond.2, by rw [hweq]⟩
    · rw [if_neg hcond] at hweq
      rw [hweq] at h
      simp at h

/-- A `deposit` that reports success found a unique active row, and produced
exactly the credited state. -/
theorem deposit_succ_inv (db : DB) (id : String) (amount : ℚ) (d : String)
    (ts : Timestamp) (hw : WF db) (h : (deposit db id amount d ts).1 = true) :
    ∃ a, findAccount db id = some a ∧ a.status = "active" ∧
      (deposit db id amount d ts).2 =
        { accounts := updateRows db.accounts id
            (fun b => { b with balance := a.balance + amount }),
          transactions := db.transactions ++
            [⟨id, "credit", amount, d, a.balance + amount, ts⟩] } := by
  have hdeq := deposit_eq db id amount d ts hw
  cases hfa : findAccount db id with
  | none =>
    simp only [hfa] at hdeq
    rw [hdeq] at h
    simp at h
  | some a =>
    simp only [hfa] at hdeq
    by_cases hcond : a.status = "active"
    · rw [if_pos hcond] at hdeq
      exact ⟨a, rfl, hcond, by rw [hdeq]⟩
    · rw [if_neg hcond] at hdeq
      rw [hdeq] at h
      simp at h

/-- Rewriting equation for `transfer` in terms of its two legs. -/
theorem transfer_eq (db : DB) (from_acc to_acc : String) (amount : ℚ)
    (ts1 ts2 : Timestamp) :
    transfer db from_acc to_acc amount ts1 ts2 =
      if (withdraw db from_acc amount ("Transfer to " ++ to_acc) ts1).1 = false then
        (false, db)
      else if (deposit (withdraw db from_acc amount ("Transfer to " ++ to_acc) ts1).2
          to_acc amount ("Transfer from " ++ from_acc) ts2).1 = false then
        (false, (withdraw db from_acc amount ("Transfer to " ++ to_acc) ts1).2)
      else
        (true, (deposit (withdraw db from_acc amount ("Transfer to " ++ to_acc) ts1).2
          to_acc amount ("Transfer from " ++ from_acc) ts2).2) := rfl

theorem findAccount_def (db : DB) (j : String) :
    findAccount db j = (db.accounts.find? (fun p => p.1 == j)).map Prod.snd := rfl

/-- A successful `transfer` debits the (unique, active) source row by
`amount`, credits the destination row by `amount`, appends exactly the two
ledger rows, and touches no other account. -/
theorem transfer_succ (db : DB) (from_acc to_acc : String) (amount : ℚ)
    (ts1 ts2 : Timestamp) (hw : WF db) (hne : from_acc ≠ to_acc)
    (h : (transfer db from_acc to_acc amount ts1 ts2).1 = true) :
    ∃ a b, findAccount db from_acc = some a ∧ findAccount db to_acc = some b ∧
      a.status = "active" ∧ b.status = "active" ∧ amount ≤ a.balance ∧
      findAccount (transfer db from_acc to_acc amount ts1 ts2).2 from_acc =
        some { a with balance := a.balance - amount } ∧
      findAccount (transfer db from_acc to_acc amount ts1 ts2).2 to_acc =
        some { b with balance := b.balance + amount } ∧
      (transfer db from_acc to_acc amount ts1 ts2).2.transactions =
        db.transactions ++
          [⟨from_acc, "debit", amount, "Transfer to " ++ to_acc, a.balance - amount, ts1⟩,
           ⟨to_acc, "credit", amount, "Transfer from " ++ from_acc, b.balance + amount, ts2⟩] ∧
      (∀ j, j ≠ from_acc → j ≠ to_acc →
        findAccount (transfer db from_acc to_acc amount ts1 ts2).2 j = findAccount db j) := by
  by_cases hw1 : (withdraw db from_acc amount ("Transfer to " ++ to_acc) ts1).1 = false
  · rw [transfer_eq, if_pos hw1] at h
    simp at h
  · have hw1t := bool_true_of_not_false _ hw1
    obtain ⟨a, hfa, hact, hle, hS1⟩ :=
      withdraw_succ_inv db from_acc amount ("Transfer to " ++ to_acc) ts1 hw hw1t
    have hwfS1 : WF (withdraw db from_acc amount ("Transfer to " ++ to_acc) ts1).2 := by
      rw [hS1]
      exact WF_mk_updateRows _ _ _ _ hw
    by_cases hd1 : (deposit (withdraw db from_acc amount ("Transfer to " ++ to_acc) ts1).2
        to_acc amount ("Transfer from " ++ from_acc) ts2).1 = false
    · rw [transfer_eq, if_neg hw1, if_pos hd1] at h
      simp at h
    · have hd1t := bool_true_of_not_false _ hd1
      obtain ⟨b, hfb1, hbact, hS2⟩ :=
        deposit_succ_inv _ to_acc amount ("Transfer from " ++ from_acc) ts2 hwfS1 hd1t
      have hfb : findAccount db to_acc = some b := by
        rw [hS1] at hfb1
        rw [findAccount_updateRows_ne db.accounts _ from_acc to_acc _
          (fun hc => hne hc.symm)] at hfb1
        exact hfb1
      have htr : (transfer db from_acc to_acc amount ts1 ts2).2 =
          (deposit (withdraw db from_acc amount ("Transfer to " ++ to_acc) ts1).2
            to_acc amount ("Transfer from " ++ from_acc) ts2).2 := by
        rw [transfer_eq, if_neg hw1, if_neg hd1]
      have haccW2 : (withdraw db from_acc amount ("Transfer to " ++ to_acc) ts1).2.accounts =
          updateRows db.accounts from_acc (fun b => { b with balance := a.balance - amount }) := by
        rw [hS1]
      have htxW2 : (withdraw db from_acc amount ("Transfer to " ++ to_acc) ts1).2.transactions =
          db.transactions ++
            [⟨from_acc, "debit", amount, "Transfer to " ++ to_acc, a.balance - amount, ts1⟩] := by
        rw [hS1]
      refine ⟨a, b, hfa, hfb, hact, hbact, hle, ?_, ?_, ?_, ?_⟩
      · rw [htr, hS2, haccW2]
        rw [findAccount_updateRows_ne _ _ to_acc from_acc _ hne]
        rw [find?_updateRows_self]
        obtain ⟨p, hp, hpa⟩ := exists_row_of_findAccount db from_acc a hfa
        rw [hp]
        simp [hpa]
      · rw [htr, hS2]
        rw [findAccount_updateRows_self]
        rw [← findAccount_def, hfb1]
        rfl
      · rw [htr, hS2, htxW2]
        simp
      · intro j hjf hjt
        rw [htr, hS2]
        rw [findAccount_updateRows_ne _ _ to_acc j _ hjt]
        rw [← findAccount_def, hS1]
        rw [findAccount_updateRows_ne _ _ from_acc j _ hjf]
        rfl

/-! ### Claims -/

/-- Database exhibiting the failed-transfer behaviour: one active account
`A` with balance 100 and an empty ledger; `B` does not exist. -/
def dbC1 : DB := ⟨[("A", ⟨"Alice", "savings", 100, "active", "2024-01-01"⟩)], []⟩

/-- Claim C1 states that whenever `transfer(A, B, amt)` returns false, both
balances and both transaction histories are unchanged — in particular a
successful withdraw leg must be rolled back when the deposit leg fails.  The
code violates this: `withdraw` commits on its own connection, and the
rollback on `transfer`'s connection (which wrote nothing) cannot undo it.
Concretely, transferring 30 from the active account `A` (balance 100) to the
nonexistent account `B` returns false, yet afterwards `A`'s balance is 70 and
a new debit row for `A` is visible. -/
theorem C1_failed_transfer_mutates_source :
    (transfer dbC1 "A" "B" 30 ⟨1, 1⟩ ⟨1, 2⟩).1 = false ∧
    get_balance dbC1 "A" = 100 ∧
    get_balance (transfer dbC1 "A" "B" 30 ⟨1, 1⟩ ⟨1, 2⟩).2 "A" = 70 ∧
    dbC1.transactions = [] ∧
    (transfer dbC1 "A" "B" 30 ⟨1, 1⟩ ⟨1, 2⟩).2.transactions =
      [⟨"A", "debit", 30, "Transfer to B", 70, ⟨1, 1⟩⟩] := by
  norm_num [transfer, withdraw, deposit, get_balance, findAccount, updateRows, dbC1]
  simp

/-- Database with one active account `A` of balance 0 and an empty ledger. -/
def dbC2 : DB := ⟨[("A", ⟨"Ann", "checking", 0, "active", "2024-01-01"⟩)], []⟩

/-- Claim C2 states that over every sequence of deposit/withdraw operations
the balance never becomes negative.  The code violates this: `deposit` never
validates the sign of `amount`, so depositing `-50` into an active account of
balance 0 reports success and drives the stored balance to `-50`. -/
theorem C2_negative_deposit_breaks_nonnegativity :
    get_balance dbC2 "A" = 0 ∧
    (deposit dbC2 "A" (-50) "Deposit" ⟨1, 1⟩).1 = true ∧
    get_balance (deposit dbC2 "A" (-50) "Deposit" ⟨1, 1⟩).2 "A" = -50 := by
  norm_num [deposit, get_balance, findAccount, updateRows, dbC2]

/-- Shared helper: closing an existing account whose balance is zero reports
success, sets the status to `closed`, and changes nothing else visible. -/
theorem close_account_zero (db : DB) (id : String) (a : Account)
    (hf : findAccount db id = some a) (hb : a.balance = 0) :
    (close_account db id).1 = true ∧
    findAccount (close_account db id).2 id = some { a with status := "closed" } ∧
    (∀ j, j ≠ id → findAccount (close_account db id).2 j = findAccount db j) ∧
    (close_account db id).2.transactions = db.transactions := by
  have hc : close_account db id =
      (decide (0 < rowcount db.accounts id),
       { db with
         accounts := updateRows db.accounts id (fun b => { b with status := "closed" }) }) := by
    unfold close_account
    rw [hf]
    simp [hb]
  have hpos := rowcount_pos_of_findAccount db id a hf
  refine ⟨?_, ?_, ?_, ?_⟩
  · rw [hc]
    simpa using hpos
  · rw [hc]
    rw [findAccount_updateRows_self]
    rw [← findAccount_def, hf]
    rfl
  · intro j hj
    rw [hc]
    rw [findAccount_updateRows_ne _ _ id j _ hj]
    rfl
  · rw [hc]

/-- Claim C5: `close_account` returns false and performs no mutation when the
account does not exist or its balance is nonzero; otherwise it returns true
and transitions the status to `closed` while leaving every other account and
the whole ledger untouched.  In particular closing an account with nonzero
balance never changes its status. -/
theorem C5_close_account_spec (db : DB) (id : String) :
    (findAccount db id = none → close_account db id = (false, db)) ∧
    (∀ a, findAccount db id = some a → a.balance ≠ 0 → close_account db id = (false, db)) ∧
    (∀ a, findAccount db id = some a → a.balance = 0 →
      (close_account db id).1 = true ∧
      findAccount (close_account db id).2 id = some { a with status := "closed" } ∧
      (∀ j, j ≠ id → findAccount (close_account db id).2 j = findAccount db j) ∧
      (close_account db id).2.transactions = db.transactions) := by
  refine ⟨?_, ?_, ?_⟩
  · intro hf
    unfold close_account
    rw [hf]
  · intro a hf hb
    unfold close_account
    rw [hf]
    simp [hb]
  · intro a hf hb
    exact close_account_zero db id a hf hb

/-- Database for the C5 witness: an active account `A` with nonzero balance
and an active account `Z` with zero balance. -/
def dbC5 : DB :=
  ⟨[("A", ⟨"Al", "savings", 5, "active", "d0"⟩),
    ("Z", ⟨"Zed", "savings", 0, "active", "d0"⟩)], []⟩

/-- Witness for C5 at a concrete database. -/
theorem C5_close_account_witness :
    close_account dbC5 "missing" = (false, dbC5) ∧
    close_account dbC5 "A" = (false, dbC5) ∧
    (close_account dbC5 "Z").1 = true ∧
    findAccount (close_account dbC5 "Z").2 "Z" =
      some ⟨"Zed", "savings", 0, "closed", "d0"⟩ ∧
    findAccount (close_account dbC5 "Z").2 "A" = findAccount dbC5 "A" ∧
    (close_account dbC5 "Z").2.transactions = dbC5.transactions := by
  obtain ⟨h1, h2, h3⟩ := C5_close_account_spec dbC5 "Z"
  obtain ⟨g1, g2, g3, g4⟩ := h3 ⟨"Zed", "savings", 0, "active", "d0"⟩ (by decide) (by decide)
  exact ⟨(C5_close_account_spec dbC5 "missing").1 (by decide),
    (C5_close_account_spec dbC5 "A").2.1 ⟨"Al", "savings", 5, "active", "d0"⟩
      (by decide) (by decide),
    g1, g2, g3 "A" (by decide), g4⟩

/-- Claim C10: re-closing an already-closed account with zero balance returns
true, leaves the account record exactly as it was (status still `closed`),
and mutates nothing else. -/
theorem C10_reclose_closed_zero (db : DB) (id : String) (a : Account)
    (hf : findAccount db id = some a) (hb : a.balance = 0) (hs : a.status = "closed") :
    (close_account db id).1 = true ∧
    findAccount (close_account db id).2 id = some a ∧
    (∀ j, j ≠ id → findAccount (close_account db id).2 j = findAccount db j) ∧
    (close_account db id).2.transactions = db.transactions := by
  obtain ⟨h1, h2, h3, h4⟩ := close_account_zero db id a hf hb
  rw [account_set_status_self a "closed" hs] at h2
  exact ⟨h1, h2, h3, h4⟩

/-- Database for the C10 witness: a closed account `C` with zero balance. -/
def dbC10 : DB := ⟨[("C", ⟨"Cy", "checking", 0, "closed", "d0"⟩)], []⟩

/-- Witness for C10 at a concrete database. -/
theorem C10_reclose_witness :
    (close_account dbC10 "C").1 = true ∧
    findAccount (close_account dbC10 "C").2 "C" =
      some ⟨"Cy", "checking", 0, "closed", "d0"⟩ ∧
    (close_account dbC10 "C").2.transactions = dbC10.transactions := by
  obtain ⟨h1, h2, h3, h4⟩ := C10_reclose_closed_zero dbC10 "C"
    ⟨"Cy", "checking", 0, "closed", "d0"⟩ (by decide) (by decide) (by decide)
  exact ⟨h1, h2, h4⟩

/-- Claim C4: for every successful `transfer(A, B, amt)` with `A ≠ B`, the
balance of `A` decreases by exactly `amt`, the balance of `B` increases by
exactly `amt`, and the sum of the two balances is unchanged. -/
theorem C4_transfer_conservation (db : DB) (from_acc to_acc : String) (amount : ℚ)
    (ts1 ts2 : Timestamp) (hw : WF db) (hne : from_acc ≠ to_acc)
    (h : (transfer db from_acc to_acc amount ts1 ts2).1 = true) :
    get_balance (transfer db from_acc to_acc amount ts1 ts2).2 from_acc =
      get_balance db from_acc - amount ∧
    get_balance (transfer db from_acc to_acc amount ts1 ts2).2 to_acc =
      get_balance db to_acc + amount ∧
    get_balance (transfer db from_acc to_acc amount ts1 ts2).2 from_acc +
      get_balance (transfer db from_acc to_acc amount ts1 ts2).2 to_acc =
      get_balance db from_acc + get_balance db to_acc := by
  obtain ⟨a, b, hfa, hfb, -, -, -, hfa2, hfb2, -, -⟩ :=
    transfer_succ db from_acc to_acc amount ts1 ts2 hw hne h
  have e1 : get_balance (transfer db from_acc to_acc amount ts1 ts2).2 from_acc =
      a.balance - amount := by
    unfold get_balance
    rw [hfa2]
  have e2 : get_balance (transfer db from_acc to_acc amount ts1 ts2).2 to_acc =
      b.balance + amount := by
    unfold get_balance
    rw [hfb2]
  have e3 : get_balance db from_acc = a.balance := by
    unfold get_balance
    rw [hfa]
  have e4 : get_balance db to_acc = b.balance := by
    unfold get_balance
    rw [hfb]
  rw [e1, e2, e3, e4]
  refine ⟨rfl, rfl, by ring⟩

/-- Database for the C4 witness: two distinct active accounts. -/
def dbC4 : DB :=
  ⟨[("A", ⟨"Al", "savings", 100, "active", "d0"⟩),
    ("B", ⟨"Bo", "checking", 7, "active", "d0"⟩)], []⟩

/-- Witness for C4 at a concrete database and transfer. -/
theorem C4_transfer_conservation_witness :
    WF dbC4 ∧ "A" ≠ "B" ∧ (transfer dbC4 "A" "B" 30 ⟨1, 1⟩ ⟨1, 2⟩).1 = true ∧
    (get_balance (transfer dbC4 "A" "B" 30 ⟨1, 1⟩ ⟨1, 2⟩).2 "A" =
        get_balance dbC4 "A" - 30 ∧
      get_balance (transfer dbC4 "A" "B" 30 ⟨1, 1⟩ ⟨1, 2⟩).2 "B" =
        get_balance dbC4 "B" + 30 ∧
      get_balance (transfer dbC4 "A" "B" 30 ⟨1, 1⟩ ⟨1, 2⟩).2 "A" +
        get_balance (transfer dbC4 "A" "B" 30 ⟨1, 1⟩ ⟨1, 2⟩).2 "B" =
        get_balance dbC4 "A" + get_balance dbC4 "B") := by
  have hw : WF dbC4 := by
    unfold WF
    decide
  have hne : ("A" : String) ≠ "B" := by decide
  have ht : (transfer dbC4 "A" "B" 30 ⟨1, 1⟩ ⟨1, 2⟩).1 = true := by
    norm_num [transfer, withdraw, deposit, findAccount, updateRows, dbC4]
    simp
  exact ⟨hw, hne, ht, C4_transfer_conservation dbC4 "A" "B" 30 ⟨1, 1⟩ ⟨1, 2⟩ hw hne ht⟩

/-- Helper: `update_account_details` with no truthy field is a no-op that
reports success. -/
theorem update_account_details_noop (db : DB) (id : String) (h? t? : Option String)
    (h : (!truthy h? && !truthy t?) = true) :
    update_account_details db id h? t? = (true, db) := by
  unfold update_account_details
  rw [if_pos h]

/-- Helper: `update_account_details` with at least one truthy field runs the
`UPDATE` and reports `rowcount > 0`. -/
theorem update_account_details_eq (db : DB) (id : String) (h? t? : Option String)
    (h : (!truthy h? && !truthy t?) = false) :
    update_account_details db id h? t? =
      (decide (0 < rowcount db.accounts id),
       { db with
         accounts := updateRows db.accounts id (fun a =>
           let a1 := if truthy h? then { a with holder_name := h?.getD "" } else a
           if truthy t? then { a1 with account_type := t?.getD "" } else a1) }) := by
  unfold update_account_details
  rw [if_neg (by simp [h])]

/-- Database for claim C3: a single closed account `C` with zero balance. -/
def dbC3 : DB := ⟨[("C", ⟨"Old", "savings", 0, "closed", "d0"⟩)], []⟩

/-- Counterexample to claim C3 as stated: the claim demands that every
`update_account_details` call targeting a closed account return false and
leave `holder_name` unchanged, but the code has no status gate in
`update_account_details` — updating the closed account `C` succeeds and
rewrites its holder name. -/
theorem C3_counterexample_update_on_closed :
    findAccount dbC3 "C" = some ⟨"Old", "savings", 0, "closed", "d0"⟩ ∧
    (update_account_details dbC3 "C" (some "New") none).1 = true ∧
    findAccount (update_account_details dbC3 "C" (some "New") none).2 "C" =
      some ⟨"New", "savings", 0, "closed", "d0"⟩ := by
  refine ⟨by decide, by decide, by decide⟩

/-- Claim C3 as amended: once an account is closed, `deposit`, `withdraw`,
and either leg of a `transfer` targeting it return false and leave the closed
account's record and transaction history unchanged; `update_account_details`,
however, is not gated on status: it leaves the balance, the status, the
creation date and the ledger unchanged, but does apply the provided fields
even to a closed account. -/
theorem C3_closed_account_no_mutation (db : DB) (id : String) (a : Account)
    (hw : WF db) (hf : findAccount db id = some a) (hs : a.status = "closed") :
    (∀ amount d ts, deposit db id amount d ts = (false, db)) ∧
    (∀ amount d ts, withdraw db id amount d ts = (false, db)) ∧
    (∀ t amount ts1 ts2, transfer db id t amount ts1 ts2 = (false, db)) ∧
    (∀ f amount ts1 ts2, (transfer db f id amount ts1 ts2).1 = false ∧
      findAccount (transfer db f id amount ts1 ts2).2 id = some a ∧
      (transfer db f id amount ts1 ts2).2.transactions.filter
          (fun τ => τ.account_id == id) =
        db.transactions.filter (fun τ => τ.account_id == id)) ∧
    (∀ h? t?, (update_account_details db id h? t?).2.transactions = db.transactions ∧
      ∃ a2, findAccount (update_account_details db id h? t?).2 id = some a2 ∧
        a2.balance = a.balance ∧ a2.status = a.status ∧ a2.created_at = a.created_at) := by
  have hna : a.status ≠ "active" := by
    rw [hs]
    decide
  refine ⟨?_, ?_, ?_, ?_, ?_⟩
  · intro amount d ts
    exact deposit_inactive db id amount d ts hw a hf hna
  · intro amount d ts
    refine withdraw_blocked db id amount d ts hw a hf ?_
    rintro ⟨h1, -⟩
    exact hna h1
  · intro t amount ts1 ts2
    have hwd : withdraw db id amount ("Transfer to " ++ t) ts1 = (false, db) := by
      refine withdraw_blocked db id amount _ ts1 hw a hf ?_
      rintro ⟨h1, -⟩
      exact hna h1
    rw [transfer_eq, hwd]
    simp
  · intro f amount ts1 ts2
    by_cases hw1 : (withdraw db f amount ("Transfer to " ++ id) ts1).1 = false
    · rw [transfer_eq, if_pos hw1]
      exact ⟨rfl, hf, rfl⟩
    · have hw1t := bool_true_of_not_false _ hw1
      obtain ⟨c, hfc, hcact, hcle, hS1⟩ :=
        withdraw_succ_inv db f amount ("Transfer to " ++ id) ts1 hw hw1t
      have hfid : f ≠ id := by
        intro hEq
        subst hEq
        rw [hf] at hfc
        injection hfc with hca
        rw [← hca] at hcact
        rw [hs] at hcact
        exact absurd hcact (by decide)
      have hfid2 : findAccount (withdraw db f amount ("Transfer to " ++ id) ts1).2 id =
          some a := by
        rw [hS1]
        rw [findAccount_updateRows_ne _ _ f id _ (fun hc => hfid hc.symm)]
        exact hf
      have hwf2 : WF (withdraw db f amount ("Transfer to " ++ id) ts1).2 := by
        rw [hS1]
        exact WF_mk_updateRows _ _ _ _ hw
      have hdep : deposit (withdraw db f amount ("Transfer to " ++ id) ts1).2 id amount
          ("Transfer from " ++ f) ts2 =
          (false, (withdraw db f amount ("Transfer to " ++ id) ts1).2) :=
        deposit_inactive _ id amount _ ts2 hwf2 a hfid2 hna
      have htr : transfer db f id amount ts1 ts2 =
          (false, (withdraw db f amount ("Transfer to " ++ id) ts1).2) := by
        rw [transfer_eq, if_neg hw1, hdep]
        simp
      have htx : (withdraw db f amount ("Transfer to " ++ id) ts1).2.transactions =
          db.transactions ++
            [⟨f, "debit", amount, "Transfer to " ++ id, c.balance - amount, ts1⟩] := by
        rw [hS1]
      refine ⟨by rw [htr], by rw [htr]; exact hfid2, ?_⟩
      rw [htr]
      show (withdraw db f amount ("Transfer to " ++ id) ts1).2.transactions.filter
          (fun τ => τ.account_id == id) = _
      rw [htx, List.filter_append]
      have hvanish : ([⟨f, "debit", amount, "Transfer to " ++ id, c.balance - amount,
          ts1⟩] : List Txn).filter (fun τ => τ.account_id == id) = [] := by
        simp [hfid]
      rw [hvanish, List.append_nil]
  · intro h? t?
    by_cases hcase : (!truthy h? && !truthy t?) = true
    · rw [update_account_details_noop db id h? t? hcase]
      exact ⟨rfl, a, hf, rfl, rfl, rfl⟩
    · have hcase2 : (!truthy h? && !truthy t?) = false := by
        revert hcase
        cases (!truthy h? && !truthy t?) <;> simp
      rw [update_account_details_eq db id h? t? hcase2]
      refine ⟨rfl, ?_⟩
      rw [show ({ db with
          accounts := updateRows db.accounts id (fun a =>
            let a1 := if truthy h? then { a with holder_name := h?.getD "" } else a
            if truthy t? then { a1 with account_type := t?.getD "" } else a1) } : DB) =
          ⟨updateRows db.accounts id (fun a =>
            let a1 := if truthy h? then { a with holder_name := h?.getD "" } else a
            if truthy t? then { a1 with account_type := t?.getD "" } else a1),
           db.transactions⟩ from rfl]
      rw [findAccount_updateRows_self, ← findAccount_def, hf]
      refine ⟨_, rfl, ?_, ?_, ?_⟩
      · cases hh : truthy h? <;> cases htt : truthy t? <;> simp [hh, htt]
      · cases hh : truthy h? <;> cases htt : truthy t? <;> simp [hh, htt]
      · cases hh : truthy h? <;> cases htt : truthy t? <;> simp [hh, htt]

/-- Witness for the amended claim C3 at a concrete closed account. -/
theorem C3_closed_account_witness :
    WF dbC3 ∧ findAccount dbC3 "C" = some ⟨"Old", "savings", 0, "closed", "d0"⟩ ∧
    deposit dbC3 "C" 5 "x" ⟨1, 1⟩ = (false, dbC3) ∧
    withdraw dbC3 "C" 5 "x" ⟨1, 1⟩ = (false, dbC3) ∧
    transfer dbC3 "C" "B" 5 ⟨1, 1⟩ ⟨1, 2⟩ = (false, dbC3) ∧
    (transfer dbC3 "B" "C" 5 ⟨1, 1⟩ ⟨1, 2⟩).1 = false ∧
    (update_account_details dbC3 "C" (some "New") none).2.transactions =
      dbC3.transactions := by
  have hw : WF dbC3 := by
    unfold WF
    decide
  have hf : findAccount dbC3 "C" = some ⟨"Old", "savings", 0, "closed", "d0"⟩ := by decide
  obtain ⟨p1, p2, p3, p4, p5⟩ :=
    C3_closed_account_no_mutation dbC3 "C" ⟨"Old", "savings", 0, "closed", "d0"⟩ hw hf rfl
  exact ⟨hw, hf, p1 5 "x" ⟨1, 1⟩, p2 5 "x" ⟨1, 1⟩, p3 "B" 5 ⟨1, 1⟩ ⟨1, 2⟩,
    (p4 "B" 5 ⟨1, 1⟩ ⟨1, 2⟩).1, (p5 (some "New") none).1⟩

/-- Claim C6: `create_account` with a fresh identifier and `initial_deposit
≥ 0` creates the account with `balance = initial_deposit` and status
`active`, leaves every other account unchanged, appends exactly one `credit`
transaction with description "Initial deposit" and `balance_after =
initial_deposit` when `initial_deposit > 0`, and appends no transaction when
`initial_deposit = 0`. -/
theorem C6_create_account_spec (db : DB) (id holder atype : String) (init : ℚ)
    (today : String) (ts : Timestamp) (hinit : 0 ≤ init)
    (hfresh : findAccount db id = none) :
    findAccount (create_account db id holder atype init today ts) id =
      some ⟨holder, atype, init, "active", today⟩ ∧
    (∀ j, j ≠ id → findAccount (create_account db id holder atype init today ts) j =
      findAccount db j) ∧
    (0 < init → (create_account db id holder atype init today ts).transactions =
      db.transactions ++ [⟨id, "credit", init, "Initial deposit", init, ts⟩]) ∧
    (init = 0 → (create_account db id holder atype init today ts).transactions =
      db.transactions) := by
  have hacc : (create_account db id holder atype init today ts).accounts =
      db.accounts ++ [(id, ⟨holder, atype, init, "active", today⟩)] := by
    unfold create_account
    by_cases hpos : 0 < init
    · rw [if_pos hpos]
    · rw [if_neg hpos]
  have hfind0 : db.accounts.find? (fun p => p.1 == id) = none := by
    unfold findAccount at hfresh
    cases hfind : db.accounts.find? (fun p => p.1 == id) with
    | none => rfl
    | some p =>
      rw [hfind] at hfresh
      simp at hfresh
  refine ⟨?_, ?_, ?_, ?_⟩
  · rw [findAccount_def, hacc, List.find?_append, hfind0]
    simp
  · intro j hj
    rw [findAccount_def, hacc, List.find?_append]
    have hnone : ([(id, (⟨holder, atype, init, "active", today⟩ : Account))].find?
        (fun p => p.1 == j)) = none := by
      simp [beq_eq_false_iff_ne]
      exact fun hc => hj hc.symm
    rw [hnone]
    simp [findAccount_def]
  · intro hpos
    unfold create_account
    rw [if_pos hpos]
  · intro h0
    unfold create_account
    rw [if_neg (by rw [h0]; exact lt_irrefl 0)]

/-- Database for the C6 witness: one existing account `E` with one ledger
row. -/
def dbC6 : DB :=
  ⟨[("E", ⟨"Eve", "savings", 3, "active", "d0"⟩)],
   [⟨"E", "credit", 3, "Initial deposit", 3, ⟨1, 0⟩⟩]⟩

/-- Witness for C6 at a concrete database, covering both the positive and
the zero initial-deposit branch. -/
theorem C6_create_account_witness :
    (0 : ℚ) ≤ 50 ∧ findAccount dbC6 "N" = none ∧
    findAccount (create_account dbC6 "N" "Ned" "checking" 50 "d1" ⟨2, 0⟩) "N" =
      some ⟨"Ned", "checking", 50, "active", "d1"⟩ ∧
    findAccount (create_account dbC6 "N" "Ned" "checking" 50 "d1" ⟨2, 0⟩) "E" =
      findAccount dbC6 "E" ∧
    (create_account dbC6 "N" "Ned" "checking" 50 "d1" ⟨2, 0⟩).transactions =
      dbC6.transactions ++ [⟨"N", "credit", 50, "Initial deposit", 50, ⟨2, 0⟩⟩] ∧
    (create_account dbC6 "Z" "Zoe" "checking" 0 "d1" ⟨2, 0⟩).transactions =
      dbC6.transactions := by
  have h1 : (0 : ℚ) ≤ 50 := by norm_num
  have h2 : findAccount dbC6 "N" = none := by decide
  have h2z : findAccount dbC6 "Z" = none := by decide
  obtain ⟨g1, g2, g3, -⟩ :=
    C6_create_account_spec dbC6 "N" "Ned" "checking" 50 "d1" ⟨2, 0⟩ h1 h2
  obtain ⟨-, -, -, z4⟩ :=
    C6_create_account_spec dbC6 "Z" "Zoe" "checking" 0 "d1" ⟨2, 0⟩ (by norm_num) h2z
  exact ⟨h1, h2, g1, g2 "E" (by decide), g3 (by norm_num), z4 rfl⟩

theorem filter_append_single_true (txs : List Txn) (τ : Txn) (id : String)
    (h : (τ.account_id == id) = true) :
    (txs ++ [τ]).filter (fun t => t.account_id == id) =
      txs.filter (fun t => t.account_id == id) ++ [τ] := by
  rw [List.filter_append]
  congr 1
  simp [h]

theorem getLast?_filter_append_true (txs : List Txn) (τ : Txn) (id : String)
    (h : (τ.account_id == id) = true) :
    ((txs ++ [τ]).filter (fun t => t.account_id == id)).getLast? = some τ := by
  rw [filter_append_single_true txs τ id h, List.getLast?_concat]

theorem getLast?_filter_append_pair (txs : List Txn) (τ1 τ2 : Txn) (id : String)
    (h1 : (τ1.account_id == id) = true) (h2 : (τ2.account_id == id) = false) :
    ((txs ++ [τ1, τ2]).filter (fun t => t.account_id == id)).getLast? = some τ1 := by
  rw [List.filter_append]
  have hp : ([τ1, τ2] : List Txn).filter (fun t => t.account_id == id) = [τ1] := by
    simp [h1, h2]
  rw [hp, List.getLast?_concat]

/-- Claim C8: after every successful balance mutation (deposit, withdraw,
account creation with a positive initial deposit, or either leg of a
successful transfer) the most recent ledger row of the affected account has
`balance_after` exactly equal to that account's stored balance. -/
theorem C8_ledger_accuracy (db : DB) (id from_acc to_acc holder atype : String)
    (amount init : ℚ) (d today : String) (ts ts1 ts2 : Timestamp) (hw : WF db) :
    ((deposit db id amount d ts).1 = true →
      ∃ τ, lastTxnFor (deposit db id amount d ts).2 id = some τ ∧
        τ.balance_after = get_balance (deposit db id amount d ts).2 id) ∧
    ((withdraw db id amount d ts).1 = true →
      ∃ τ, lastTxnFor (withdraw db id amount d ts).2 id = some τ ∧
        τ.balance_after = get_balance (withdraw db id amount d ts).2 id) ∧
    (0 < init → findAccount db id = none →
      ∃ τ, lastTxnFor (create_account db id holder atype init today ts) id = some τ ∧
        τ.balance_after = get_balance (create_account db id holder atype init today ts) id) ∧
    ((transfer db from_acc to_acc amount ts1 ts2).1 = true →
      (∃ τ, lastTxnFor (transfer db from_acc to_acc amount ts1 ts2).2 to_acc = some τ ∧
        τ.balance_after = get_balance (transfer db from_acc to_acc amount ts1 ts2).2 to_acc) ∧
      (from_acc ≠ to_acc →
        ∃ τ, lastTxnFor (transfer db from_acc to_acc amount ts1 ts2).2 from_acc = some τ ∧
          τ.balance_after = get_balance (transfer db from_acc to_acc amount ts1 ts2).2 from_acc)) := by
  refine ⟨?_, ?_, ?_, ?_⟩
  · intro h
    obtain ⟨a, hfa, hact, hS⟩ := deposit_succ_inv db id amount d ts hw h
    refine ⟨⟨id, "credit", amount, d, a.balance + amount, ts⟩, ?_, ?_⟩
    · unfold lastTxnFor
      rw [hS]
      show ((db.transactions ++ ([⟨id, "credit", amount, d, a.balance + amount, ts⟩] :
        List Txn)).filter (fun t => t.account_id == id)).getLast? = _
      exact getLast?_filter_append_true _ _ _ (by simp)
    · have hb : findAccount (deposit db id amount d ts).2 id =
          some { a with balance := a.balance + amount } := by
        rw [hS, findAccount_updateRows_self, ← findAccount_def, hfa]
        rfl
      unfold get_balance
      rw [hb]
  · intro h
    obtain ⟨a, hfa, hact, hle, hS⟩ := withdraw_succ_inv db id amount d ts hw h
    refine ⟨⟨id, "debit", amount, d, a.balance - amount, ts⟩, ?_, ?_⟩
    · unfold lastTxnFor
      rw [hS]
      show ((db.transactions ++ ([⟨id, "debit", amount, d, a.balance - amount, ts⟩] :
        List Txn)).filter (fun t => t.account_id == id)).getLast? = _
      exact getLast?_filter_append_true _ _ _ (by simp)
    · have hb : findAccount (withdraw db id amount d ts).2 id =
          some { a with balance := a.balance - amount } := by
        rw [hS, findAccount_updateRows_self, ← findAccount_def, hfa]
        rfl
      unfold get_balance
      rw [hb]
  · intro hpos hfresh
    have htx : (create_account db id holder atype init today ts).transactions =
        db.transactions ++ [⟨id, "credit", init, "Initial deposit", init, ts⟩] := by
      unfold create_account
      rw [if_pos hpos]
    have hacc : (create_account db id holder atype init today ts).accounts =
        db.accounts ++ [(id, ⟨holder, atype, init, "active", today⟩)] := by
      unfold create_account
      rw [if_pos hpos]
    have hfind0 : db.accounts.find? (fun p => p.1 == id) = none := by
      unfold findAccount at hfresh
      cases hfind : db.accounts.find? (fun p => p.1 == id) with
      | none => rfl
      | some p =>
        rw [hfind] at hfresh
        simp at hfresh
    have hb : findAccount (create_account db id holder atype init today ts) id =
        some ⟨holder, atype, init, "active", today⟩ := by
      rw [findAccount_def, hacc, List.find?_append, hfind0]
      simp
    refine ⟨⟨id, "credit", init, "Initial deposit", init, ts⟩, ?_, ?_⟩
    · unfold lastTxnFor
      rw [htx]
      exact getLast?_filter_append_true _ _ _ (by simp)
    · unfold get_balance
      rw [hb]
  · intro htrue
    have hw1 : ¬ (withdraw db from_acc amount ("Transfer to " ++ to_acc) ts1).1 = false := by
      intro hc
      rw [transfer_eq, if_pos hc] at htrue
      simp at htrue
    have hw1t := bool_true_of_not_false _ hw1
    obtain ⟨a, hfa, hact, hle, hS1⟩ :=
      withdraw_succ_inv db from_acc amount ("Transfer to " ++ to_acc) ts1 hw hw1t
    have hwf2 : WF (withdraw db from_acc amount ("Transfer to " ++ to_acc) ts1).2 := by
      rw [hS1]
      exact WF_mk_updateRows _ _ _ _ hw
    have hd1 : ¬ (deposit (withdraw db from_acc amount ("Transfer to " ++ to_acc) ts1).2
        to_acc amount ("Transfer from " ++ from_acc) ts2).1 = false := by
      intro hc
      rw [transfer_eq, if_neg hw1, if_pos hc] at htrue
      simp at htrue
    have hd1t := bool_true_of_not_false _ hd1
    obtain ⟨b, hfb1, hbact, hS2⟩ :=
      deposit_succ_inv _ to_acc amount ("Transfer from " ++ from_acc) ts2 hwf2 hd1t
    have htr2 : (transfer db from_acc to_acc amount ts1 ts2).2 =
        (deposit (withdraw db from_acc amount ("Transfer to " ++ to_acc) ts1).2
          to_acc amount ("Transfer from " ++ from_acc) ts2).2 := by
      rw [transfer_eq, if_neg hw1, if_neg hd1]
    constructor
    · refine ⟨⟨to_acc, "credit", amount, "Transfer from " ++ from_acc,
        b.balance + amount, ts2⟩, ?_, ?_⟩
      · unfold lastTxnFor
        rw [htr2, hS2]
        show (((withdraw db from_acc amount ("Transfer to " ++ to_acc) ts1).2.transactions ++
          ([⟨to_acc, "credit", amount, "Transfer from " ++ from_acc, b.balance + amount,
            ts2⟩] : List Txn)).filter (fun t => t.account_id == to_acc)).getLast? = _
        exact getLast?_filter_append_true _ _ _ (by simp)
      · have hb2 : findAccount (transfer db from_acc to_acc amount ts1 ts2).2 to_acc =
            some { b with balance := b.balance + amount } := by
          rw [htr2, hS2, findAccount_updateRows_self, ← findAccount_def, hfb1]
          rfl
        unfold get_balance
        rw [hb2]
    · intro hne
      have htxS2 : (transfer db from_acc to_acc amount ts1 ts2).2.transactions =
          db.transactions ++
            [⟨from_acc, "debit", amount, "Transfer to " ++ to_acc, a.balance - amount, ts1⟩,
             ⟨to_acc, "credit", amount, "Transfer from " ++ from_acc, b.balance + amount,
               ts2⟩] := by
        rw [htr2, hS2]
        show (withdraw db from_acc amount ("Transfer to " ++ to_acc) ts1).2.transactions ++
          ([⟨to_acc, "credit", amount, "Transfer from " ++ from_acc, b.balance + amount,
            ts2⟩] : List Txn) = _
        rw [hS1]
        show (db.transactions ++
          ([⟨from_acc, "debit", amount, "Transfer to " ++ to_acc, a.balance - amount,
            ts1⟩] : List Txn)) ++
          ([⟨to_acc, "credit", amount, "Transfer from " ++ from_acc, b.balance + amount,
            ts2⟩] : List Txn) = _
        rw [List.append_assoc]
        rfl
      refine ⟨⟨from_acc, "debit", amount, "Transfer to " ++ to_acc,
        a.balance - amount, ts1⟩, ?_, ?_⟩
      · unfold lastTxnFor
        rw [htxS2]
        refine getLast?_filter_append_pair _ _ _ _ (by simp) ?_
        show (to_acc == from_acc) = false
        simp only [beq_eq_false_iff_ne, ne_eq]
        exact fun hc => hne hc.symm
      · have hb3 : findAccount (transfer db from_acc to_acc amount ts1 ts2).2 from_acc =
            some { a with balance := a.balance - amount } := by
          rw [htr2, hS2]
          rw [findAccount_updateRows_ne _ _ to_acc from_acc _ hne]
          rw [← findAccount_def, hS1]
          rw [findAccount_updateRows_self, ← findAccount_def, hfa]
          rfl
        unfold get_balance
        rw [hb3]

/-- Database for the C8 witness: two distinct active accounts, empty
ledger. -/
def dbC8 : DB :=
  ⟨[("A", ⟨"Al", "savings", 100, "active", "d0"⟩),
    ("B", ⟨"Bo", "checking", 7, "active", "d0"⟩)], []⟩

/-- Witness for C8 at a concrete database, covering deposit, withdraw,
account creation and both legs of a transfer. -/
theorem C8_ledger_accuracy_witness :
    WF dbC8 ∧
    (deposit dbC8 "A" 30 "x" ⟨1, 1⟩).1 = true ∧
    (∃ τ, lastTxnFor (deposit dbC8 "A" 30 "x" ⟨1, 1⟩).2 "A" = some τ ∧
      τ.balance_after = get_balance (deposit dbC8 "A" 30 "x" ⟨1, 1⟩).2 "A") ∧
    (withdraw dbC8 "A" 30 "x" ⟨1, 1⟩).1 = true ∧
    (∃ τ, lastTxnFor (withdraw dbC8 "A" 30 "x" ⟨1, 1⟩).2 "A" = some τ ∧
      τ.balance_after = get_balance (withdraw dbC8 "A" 30 "x" ⟨1, 1⟩).2 "A") ∧
    (∃ τ, lastTxnFor (create_account dbC8 "N" "Ned" "savings" 50 "d1" ⟨1, 0⟩) "N" =
        some τ ∧
      τ.balance_after = get_balance (create_account dbC8 "N" "Ned" "savings" 50 "d1"
        ⟨1, 0⟩) "N") ∧
    (transfer dbC8 "A" "B" 30 ⟨1, 1⟩ ⟨1, 2⟩).1 = true ∧
    (∃ τ, lastTxnFor (transfer dbC8 "A" "B" 30 ⟨1, 1⟩ ⟨1, 2⟩).2 "B" = some τ ∧
      τ.balance_after = get_balance (transfer dbC8 "A" "B" 30 ⟨1, 1⟩ ⟨1, 2⟩).2 "B") ∧
    (∃ τ, lastTxnFor (transfer dbC8 "A" "B" 30 ⟨1, 1⟩ ⟨1, 2⟩).2 "A" = some τ ∧
      τ.balance_after = get_balance (transfer dbC8 "A" "B" 30 ⟨1, 1⟩ ⟨1, 2⟩).2 "A") := by
  have hw : WF dbC8 := by
    unfold WF
    decide
  have hdep : (deposit dbC8 "A" 30 "x" ⟨1, 1⟩).1 = true := by
    norm_num [deposit, findAccount, updateRows, dbC8]
  have hwd : (withdraw dbC8 "A" 30 "x" ⟨1, 1⟩).1 = true := by
    norm_num [withdraw, findAccount, updateRows, dbC8]
  have htr : (transfer dbC8 "A" "B" 30 ⟨1, 1⟩ ⟨1, 2⟩).1 = true := by
    norm_num [transfer, withdraw, deposit, findAccount, updateRows, dbC8]
    simp
  obtain ⟨p1, p2, -, p4⟩ :=
    C8_ledger_accuracy dbC8 "A" "A" "B" "Ned" "savings" 30 50 "x" "d1"
      ⟨1, 1⟩ ⟨1, 1⟩ ⟨1, 2⟩ hw
  obtain ⟨-, -, p3, -⟩ :=
    C8_ledger_accuracy dbC8 "N" "A" "B" "Ned" "savings" 30 50 "x" "d1"
      ⟨1, 0⟩ ⟨1, 1⟩ ⟨1, 2⟩ hw
  obtain ⟨q1, q2⟩ := p4 htr
  exact ⟨hw, hdep, p1 hdep, hwd, p2 hwd, p3 (by norm_num) (by decide), htr, q1,
    q2 (by decide)⟩

theorem rowcount_pos_iff (db : DB) (id : String) :
    0 < rowcount db.accounts id ↔ ∃ a, findAccount db id = some a := by
  constructor
  · intro h
    obtain ⟨p, hmem, hp⟩ := List.countP_pos_iff.mp h
    have hsome : (db.accounts.find? (fun q => q.1 == id)).isSome := by
      rw [List.find?_isSome]
      exact ⟨p, hmem, hp⟩
    obtain ⟨q, hq⟩ := Option.isSome_iff_exists.mp hsome
    refine ⟨q.2, ?_⟩
    rw [findAccount_def, hq]
    rfl
  · rintro ⟨a, ha⟩
    exact rowcount_pos_of_findAccount db id a ha

/-- Database for the C9 counterexample: no accounts at all. -/
def dbC9 : DB := ⟨[], []⟩

/-- Counterexample to claim C9 as stated: `holder_name` is passed (as the
empty string) and the account does not exist, so by the claim the call must
fail; but Python truthiness treats `""` like "not provided", the `SET` list
stays empty, and the call returns true without touching anything. -/
theorem C9_counterexample_empty_string_field :
    findAccount dbC9 "X" = none ∧
    (update_account_details dbC9 "X" (some "") none).1 = true ∧
    (update_account_details dbC9 "X" (some "") none).2 = dbC9 := by
  refine ⟨rfl, rfl, rfl⟩

/-- Claim C9 as amended: `update_account_details` treats a field that is
absent or given as the empty string as not provided.  With no (non-empty)
field provided it returns true and changes nothing — even for a nonexistent
account.  With at least one non-empty field provided it succeeds exactly when
the account exists, updates only the provided fields, and leaves the balance,
status, creation date, the ledger, and every other account unchanged. -/
theorem C9_update_details_spec (db : DB) (id : String) (h? t? : Option String) :
    ((!truthy h? && !truthy t?) = true → update_account_details db id h? t? = (true, db)) ∧
    ((truthy h? || truthy t?) = true →
      ((update_account_details db id h? t?).1 = true ↔ ∃ a, findAccount db id = some a) ∧
      (update_account_details db id h? t?).2.transactions = db.transactions ∧
      (∀ j, j ≠ id → findAccount (update_account_details db id h? t?).2 j =
        findAccount db j) ∧
      (∀ a, findAccount db id = some a →
        ∃ a2, findAccount (update_account_details db id h? t?).2 id = some a2 ∧
          a2.balance = a.balance ∧ a2.status = a.status ∧ a2.created_at = a.created_at ∧
          (truthy h? = false → a2.holder_name = a.holder_name) ∧
          (truthy t? = false → a2.account_type = a.account_type) ∧
          (∀ s, h? = some s → s ≠ "" → a2.holder_name = s) ∧
          (∀ s, t? = some s → s ≠ "" → a2.account_type = s))) := by
  constructor
  · intro h
    exact update_account_details_noop db id h? t? h
  · intro hor
    have hcase2 : (!truthy h? && !truthy t?) = false := by
      cases hh : truthy h? <;> cases htt : truthy t? <;> simp_all
    rw [update_account_details_eq db id h? t? hcase2]
    refine ⟨?_, rfl, ?_, ?_⟩
    · show decide (0 < rowcount db.accounts id) = true ↔ _
      rw [decide_eq_true_iff]
      exact rowcount_pos_iff db id
    · intro j hj
      rw [findAccount_updateRows_ne _ _ id j _ hj]
      rfl
    · intro a ha
      rw [findAccount_updateRows_self, ← findAccount_def, ha]
      refine ⟨_, rfl, ?_, ?_, ?_, ?_, ?_, ?_, ?_⟩
      · cases hh : truthy h? <;> cases htt : truthy t? <;> simp [hh, htt]
      · cases hh : truthy h? <;> cases htt : truthy t? <;> simp [hh, htt]
      · cases hh : truthy h? <;> cases htt : truthy t? <;> simp [hh, htt]
      · intro hh
        cases htt : truthy t? <;> simp [hh, htt]
      · intro htt
        cases hh : truthy h? <;> simp [hh, htt]
      · intro str hstr hne
        have hh : truthy h? = true := by
          rw [hstr]
          simpa [truthy] using hne
        cases htt : truthy t? <;> simp [hh, htt, hstr, truthy, hne]
      · intro str hstr hne
        have htt : truthy t? = true := by
          rw [hstr]
          simpa [truthy] using hne
        cases hh : truthy h? <;> simp [hh, htt, hstr, truthy, hne]

/-- Database for the C9 witness: one active account `U`. -/
def dbC9W : DB := ⟨[("U", ⟨"Old", "savings", 9, "active", "d0"⟩)], []⟩

/-- Witness for the amended claim C9 at a concrete database. -/
theorem C9_update_details_witness :
    update_account_details dbC9W "U" none none = (true, dbC9W) ∧
    ((update_account_details dbC9W "U" (some "New") none).1 = true ↔
      ∃ a, findAccount dbC9W "U" = some a) ∧
    (update_account_details dbC9W "U" (some "New") none).2.transactions =
      dbC9W.transactions ∧
    (∃ a2, findAccount (update_account_details dbC9W "U" (some "New") none).2 "U" =
      some a2 ∧ a2.balance = 9 ∧ a2.status = "active" ∧ a2.created_at = "d0" ∧
      a2.holder_name = "New") := by
  obtain ⟨-, pmut⟩ := C9_update_details_spec dbC9W "U" (some "New") none
  obtain ⟨q1, q2, -, q4⟩ := pmut (by decide)
  obtain ⟨gn, -⟩ := C9_update_details_spec dbC9W "U" none none
  obtain ⟨a2, ha2, hb, hs, hc, -, -, hset, -⟩ :=
    q4 ⟨"Old", "savings", 9, "active", "d0"⟩ (by decide)
  refine ⟨gn rfl, q1, q2, a2, ha2, ?_, ?_, ?_, hset "New" rfl (by decide)⟩
  · rw [hb]
  · rw [hs]
  · rw [hc]

theorem tsLE_trans (a b c : Timestamp) (h1 : tsLE a b = true) (h2 : tsLE b c = true) :
    tsLE a c = true := by
  simp only [tsLE, decide_eq_true_eq] at h1 h2 ⊢
  omega

theorem tsLE_total (a b : Timestamp) : (tsLE a b || tsLE b a) = true := by
  simp only [tsLE, Bool.or_eq_true, decide_eq_true_eq]
  omega

/-- Claim C7: `get_history` returns the account's rows in non-increasing
timestamp order; with both date bounds present it returns exactly (as a
permutation, i.e. same rows with multiplicity) the account's rows whose date
component lies in the inclusive range; with either bound omitted no date
filter is applied; and with no matching rows it returns the empty list rather
than an error. -/
theorem C7_get_history_spec (db : DB) (id : String) (s e : Nat)
    (s? e? : Option Nat) :
    (get_history db id s? e?).Pairwise
      (fun x y => tsLE y.timestamp x.timestamp = true) ∧
    List.Perm (get_history db id (some s) (some e))
      ((db.transactions.filter (fun t => t.account_id == id &&
        (decide (s ≤ t.timestamp.date) && decide (t.timestamp.date ≤ e)))).map
          histRowOf) ∧
    (s? = none ∨ e? = none →
      List.Perm (get_history db id s? e?)
        ((db.transactions.filter (fun t => t.account_id == id)).map histRowOf)) ∧
    ((∀ t ∈ db.transactions, ¬ t.account_id = id) → get_history db id s? e? = []) := by
  refine ⟨?_, ?_, ?_, ?_⟩
  · unfold get_history
    rw [List.pairwise_map]
    exact List.sorted_mergeSort
      (fun x y z h1 h2 => tsLE_trans z.timestamp y.timestamp x.timestamp h2 h1)
      (fun x y => tsLE_total y.timestamp x.timestamp) _
  · simp only [get_history]
    exact (List.mergeSort_perm _ _).map histRowOf
  · intro hcase
    rcases hcase with h | h
    · subst h
      cases e? with
      | none =>
        simp only [get_history, Bool.and_true]
        exact (List.mergeSort_perm _ _).map histRowOf
      | some e0 =>
        simp only [get_history, Bool.and_true]
        exact (List.mergeSort_perm _ _).map histRowOf
    · subst h
      cases s? with
      | none =>
        simp only [get_history, Bool.and_true]
        exact (List.mergeSort_perm _ _).map histRowOf
      | some s0 =>
        simp only [get_history, Bool.and_true]
        exact (List.mergeSort_perm _ _).map histRowOf
  · intro hnone
    have hfil : db.transactions.filter (fun t =>
        t.account_id == id &&
          match s?, e? with
          | some s1, some e1 => decide (s1 ≤ t.timestamp.date) &&
              decide (t.timestamp.date ≤ e1)
          | _, _ => true) = [] := by
      rw [List.filter_eq_nil_iff]
      intro t ht
      have hne := hnone t ht
      simp [hne]
    simp only [get_history, hfil]
    simp

/-- Database for the C7 witness: four ledger rows, three for `A`, out of
timestamp order. -/
def dbC7 : DB :=
  ⟨[], [⟨"A", "credit", 1, "x", 1, ⟨3, 5⟩⟩, ⟨"A", "debit", 2, "y", 3, ⟨1, 9⟩⟩,
        ⟨"B", "credit", 4, "z", 4, ⟨2, 2⟩⟩, ⟨"A", "credit", 7, "w", 10, ⟨2, 7⟩⟩]⟩

/-- Witness for C7 at a concrete database. -/
theorem C7_get_history_witness :
    (get_history dbC7 "A" (some 2) (some 3)).Pairwise
      (fun x y => tsLE y.timestamp x.timestamp = true) ∧
    List.Perm (get_history dbC7 "A" (some 2) (some 3))
      ((dbC7.transactions.filter (fun t => t.account_id == "A" &&
        (decide (2 ≤ t.timestamp.date) && decide (t.timestamp.date ≤ 3)))).map
          histRowOf) ∧
    List.Perm (get_history dbC7 "A" (some 2) none)
      ((dbC7.transactions.filter (fun t => t.account_id == "A")).map histRowOf) ∧
    get_history dbC7 "Z" none none = [] := by
  obtain ⟨w1, w2, -, -⟩ := C7_get_history_spec dbC7 "A" 2 3 (some 2) (some 3)
  obtain ⟨-, -, w3, -⟩ := C7_get_history_spec dbC7 "A" 2 3 (some 2) none
  obtain ⟨-, -, -, w4⟩ := C7_get_history_spec dbC7 "Z" 2 3 none none
  exact ⟨w1, w2, w3 (Or.inr rfl), w4 (by decide)⟩

end AccountsDb
